import Mathlib

/-!
Verification of the session/signing/login core of `bilibili_live_tool`
(`src/sign.rs`, `src/auth.rs`, `src/client.rs`, `src/error.rs`) against its
natural-language specification.  Rust `HashMap<String, String>` values are
embedded as association lists with distinct keys; iteration order never
matters for the verified properties (the code either sorts, looks up by key,
or serialises a single entry).
-/

/-- Embedding of `HashMap<String, String>`: an association list of pairs. -/
abbrev SMap := List (String × String)

/-- `HashMap::insert`: replaces any existing binding for the key. -/
def SMap.insert (m : SMap) (k v : String) : SMap :=
  (k, v) :: m.filter (fun p => !(p.1 == k))

/-- The key list of the map (`HashMap::keys`). -/
def SMap.keys (m : SMap) : List String := m.map Prod.fst

/-- `data[key]` with a default (the Rust code only indexes keys that are
present, where the default is irrelevant). -/
def SMap.getD (m : SMap) (k d : String) : String :=
  (List.lookup k m).getD d

/-- Well-formedness of the `HashMap` embedding: keys are distinct. -/
def nodupKeys (m : SMap) : Prop := (m.map Prod.fst).Nodup

instance (m : SMap) : Decidable (nodupKeys m) := by
  unfold nodupKeys; infer_instance

/-- UTF-8 encoding of a single scalar value (standard 1-4 byte scheme).
`Char.toNat` is a Unicode scalar value, so exactly one branch applies. -/
def utf8Char (c : Char) : List Nat :=
  let n := c.toNat
  if n < 128 then [n]
  else if n < 2048 then [192 + n / 64, 128 + n % 64]
  else if n < 65536 then [224 + n / 4096, 128 + n / 64 % 64, 128 + n % 64]
  else [240 + n / 262144, 128 + n / 4096 % 64, 128 + n / 64 % 64, 128 + n % 64]

/-- The UTF-8 bytes of a string (Rust `str::as_bytes`). -/
def utf8Bytes (s : String) : List Nat := s.data.flatMap utf8Char

/-- Lexicographic `≤` on byte sequences; this is exactly the `Ord` used by
Rust to sort `String`s (byte-wise comparison of the UTF-8 encodings). -/
def bytesLe : List Nat → List Nat → Bool
  | [], _ => true
  | _ :: _, [] => false
  | a :: as, b :: bs => if a < b then true else if b < a then false else bytesLe as bs

/-- Byte-wise lexicographic order on strings: the order of `sorted_keys.sort()`
in `Signer::app_sign` (Rust's `Ord for String`). -/
def keyLe (a b : String) : Prop := bytesLe (utf8Bytes a) (utf8Bytes b) = true

instance : DecidableRel keyLe := fun a b =>
  inferInstanceAs (Decidable (bytesLe (utf8Bytes a) (utf8Bytes b) = true))

/-- The same order lifted to key/value pairs (compare by key). -/
def pairLe (p q : String × String) : Prop := keyLe p.1 q.1

instance : DecidableRel pairLe := fun p q =>
  inferInstanceAs (Decidable (keyLe p.1 q.1))

/-- Upper-case hex digit, as emitted by `urlencoding::encode`. -/
def hexDigitUpper (n : Nat) : Char :=
  if n < 10 then Char.ofNat (48 + n) else Char.ofNat (55 + n)

/-- Bytes left untouched by `urlencoding::encode`: `A-Z a-z 0-9 - . _ ~`. -/
def isUrlUnreserved (b : Nat) : Bool :=
  (65 ≤ b && b ≤ 90) || (97 ≤ b && b ≤ 122) || (48 ≤ b && b ≤ 57) ||
  b == 45 || b == 46 || b == 95 || b == 126

/-- `urlencoding::encode`: percent-encodes every byte outside the unreserved
set, upper-case hex, leaving unreserved bytes as literal characters. -/
def percentEncode (s : String) : String :=
  String.mk ((utf8Bytes s).flatMap (fun b =>
    if isUrlUnreserved b then [Char.ofNat b]
    else ['%', hexDigitUpper (b / 16), hexDigitUpper (b % 16)]))

/-- `Signer::APP_KEY`. -/
def APP_KEY : String := "1d8b6e7d45233436"
/-- `Signer::APP_SECRET`. -/
def APP_SECRET : String := "560c52ccd288fed045859ed18bffd973"
/-- `Signer::LIVEHIME_BUILD`. -/
def LIVEHIME_BUILD : String := "105101"
/-- `Signer::LIVEHIME_VERSION`. -/
def LIVEHIME_VERSION : String := "5.15.1"

/-- `Signer::MIXIN_KEY_ENC_TAB`. -/
def MIXIN_KEY_ENC_TAB : List Nat :=
  [46, 47, 18, 2, 53, 8, 23, 32, 15, 50, 10, 31, 58, 3, 45, 35,
   27, 43, 5, 49, 33, 9, 42, 19, 29, 28, 14, 39, 12, 38, 41, 13,
   37, 48, 7, 16, 24, 55, 40, 61, 26, 17, 0, 1, 60, 51, 30, 4,
   22, 25, 54, 21, 56, 59, 6, 63, 57, 62, 11, 36, 20, 34, 44, 52]

/-- The five insertions at the top of `Signer::app_sign` (the map whose
pairs feed the query string).  `ts` is the injected Unix timestamp, passed
as a parameter instead of being read from the system clock. -/
def app_sign_base (ts : Nat) (data : SMap) : SMap :=
  ((((data.insert "access_key" "").insert "ts" (toString ts)).insert
      "build" LIVEHIME_BUILD).insert "version" LIVEHIME_VERSION).insert
    "appkey" APP_KEY

/-- `Signer::app_sign`.  `md5_hex` is the injected digest: it models the
external `md5` crate composed with lower-case hex formatting
(`format!("{:x}", hasher.finalize())`); the repository treats it as an
opaque library primitive.  Rust's stable `Vec::sort` of `String` keys is
embedded as insertion sort (stable) under the byte-wise order `keyLe`. -/
def app_sign (md5_hex : String → String) (ts : Nat) (data : SMap) : SMap :=
  let data := app_sign_base ts data
  let sorted_keys := List.insertionSort keyLe (SMap.keys data)
  let query_string := String.intercalate "&"
    (sorted_keys.map (fun k => k ++ "=" ++ percentEncode (data.getD k "")))
  let sign := md5_hex (query_string ++ APP_SECRET)
  data.insert "sign" sign

/-- Spec-side query string, following the spec's words: take the key/value
pairs themselves, sort them in byte-wise lexicographic key order, and join
`key=percent_encode(value)` with `&`.  Stated on pairs (not on keys plus
lookups) so the comparison with `app_sign` is a genuine refinement check. -/
def appSignSpecQuery (pairs : SMap) : String :=
  String.intercalate "&"
    ((List.insertionSort pairLe pairs).map
      (fun p => p.1 ++ "=" ++ percentEncode p.2))

/-- `Signer::get_mixin_key`: walk the 64-entry permutation table, pushing
`combined.chars().nth(index)` when it exists, then truncate to 32 chars. -/
def get_mixin_key (img_key sub_key : String) : String :=
  let combined := img_key ++ sub_key
  let result := MIXIN_KEY_ENC_TAB.foldl
    (fun acc idx =>
      match combined.data.get? idx with
      | some ch => acc.push ch
      | none => acc) ""
  String.mk (result.data.take 32)

/-- The `BiliError` variants reached from the verified core
(`src/error.rs`); each carries exactly what the Rust enum carries. -/
inductive BiliError where
  | Network (msg : String)
  | Json (msg : String)
  | Login (msg : String)
  | Auth (msg : String)
  | Api (code : Int) (msg : String)
  | General (msg : String)
deriving DecidableEq, Repr

/-- The generic response envelope (`client.rs`, `ApiResponse<T>`), with both
the `message` field and the optional `msg` field of the Rust struct. -/
structure ApiResponse (T : Type) where
  code : Int
  message : String
  data : Option T
  msg : Option String

/-- `ApiResponse::is_success`. -/
def ApiResponse.is_success (r : ApiResponse T) : Bool := r.code == 0

/-- `ApiResponse::get_message`: `msg` when present, else `message`. -/
def ApiResponse.get_message (r : ApiResponse T) : String :=
  r.msg.getD r.message

/-- The envelope check shared by `BilibiliClient::get/post/post_json` after a
body decodes: a non-zero code becomes `BiliError::Api(code, get_message())`. -/
def handle_response (r : ApiResponse T) : Except BiliError (ApiResponse T) :=
  if r.is_success then .ok r else .error (.Api r.code r.get_message)

/-- `BilibiliClient::get`.  Transport and JSON decoding are external effects
(`reqwest`/`serde`); their outcome is the `fetched` argument: an error for a
transport/decode failure, or the decoded envelope. -/
def client_get (fetched : Except BiliError (ApiResponse T)) :
    Except BiliError (ApiResponse T) :=
  match fetched with
  | .error e => .error e
  | .ok r => handle_response r

/-- `BilibiliClient::post`, identical envelope handling to `get`. -/
def client_post (fetched : Except BiliError (ApiResponse T)) :
    Except BiliError (ApiResponse T) :=
  match fetched with
  | .error e => .error e
  | .ok r => handle_response r

/-- `auth.rs` `LoginStatusData`. -/
structure LoginStatusData where
  code : Int
  message : String
  url : Option String
  refresh_token : Option String
  timestamp : Option Int
deriving DecidableEq, Repr

/-- `Auth::check_login_status`, given the cookies attached to the HTTP
response (`raw_cookies`) and the decoded envelope: the cookie map becomes
`None` exactly when empty, and a missing `data` field falls back to an
envelope-level status. -/
def check_login_status (raw_cookies : SMap)
    (json : ApiResponse LoginStatusData) : LoginStatusData × Option SMap :=
  (json.data.getD ⟨json.code, json.message, none, none, none⟩,
   if raw_cookies = [] then none else some raw_cookies)

/-- One poll observed by the `qr_login` loop: the classified status code and
message plus the cookies the HTTP response carried (possibly none). -/
structure PollStep where
  code : Int
  message : String
  cookies : SMap
deriving DecidableEq, Repr

/-- The `login_cookies` update at the top of each `qr_login` iteration:
`check_login_status` yields `Some` for a non-empty cookie map, and
`qr_login` overwrites its saved snapshot only in that case. -/
def snapUpd (acc : Option SMap) (s : PollStep) : Option SMap :=
  if s.cookies = [] then acc else some s.cookies

/-- How the `qr_login` polling loop ends on a finite observed trace. -/
inductive LoopResult where
  | confirmed (snapshot : Option SMap)
  | failed (e : BiliError)
  | pending (snapshot : Option SMap) (lastCode : Int)
deriving DecidableEq, Repr

/-- The last non-empty cookie snapshot observed across a trace of polls. -/
def lastSnapshot (steps : List PollStep) : Option SMap :=
  steps.foldl snapUpd none

/-- The polling loop of `Auth::qr_login`, run over a finite trace of poll
responses.  `acc` is `login_cookies`, `last` is `last_status_code`
(initially `-1`).  The returned list is the sequence of status messages the
loop prints (its transition notifications).  An exhausted trace yields
`pending`: the real loop would sleep 2s and poll again. -/
def qrPollLoop : List PollStep → Option SMap → Int → LoopResult × List String
  | [], acc, last => (.pending acc last, [])
  | s :: rest, acc, last =>
    let acc' := snapUpd acc s
    if s.code = last then
      -- no status change: the match is skipped, then `if code == 0 break`
      if s.code = 0 then (.confirmed acc', [])
      else qrPollLoop rest acc' last
    else
      if s.code = 0 then (.confirmed acc', ["登录成功!"])
      else if s.code = 86038 then
        (.failed (.Login "二维码已失效，请重新生成"), [])
      else if s.code = 86090 then
        let r := qrPollLoop rest acc' s.code
        (r.1, "二维码已扫描，等待确认..." :: r.2)
      else if s.code = 86101 then
        -- the waiting message was already printed before the loop
        qrPollLoop rest acc' s.code
      else (.failed (.Login ("登录失败: " ++ s.message)), [])

instance {ε α : Type} [DecidableEq ε] [DecidableEq α] : DecidableEq (Except ε α) :=
  fun x y =>
    match x, y with
    | .error a, .error b =>
      if h : a = b then .isTrue (by rw [h]) else .isFalse (by simp [h])
    | .error _, .ok _ => .isFalse (by simp)
    | .ok _, .error _ => .isFalse (by simp)
    | .ok a, .ok b =>
      if h : a = b then .isTrue (by rw [h]) else .isFalse (by simp [h])

/-- What `qr_login` does with the loop's outcome. -/
inductive QrOutcome where
  | done (r : Except BiliError SMap)
  | stillPolling
deriving DecidableEq, Repr

/-- `Auth::qr_login` up to the cookie snapshot it hands to
`get_user_info`: on confirmation it unwraps `login_cookies`
(error when no poll ever carried cookies), and `.ok c` means identity
resolution proceeds with snapshot `c`. -/
def qr_login_result (trace : List PollStep) : QrOutcome :=
  match (qrPollLoop trace none (-1)).1 with
  | .confirmed none => .done (.error (.Login "未获取到登录cookies"))
  | .confirmed (some c) => .done (.ok c)
  | .failed e => .done (.error e)
  | .pending _ _ => .stillPolling

/-- The login-status notifications printed by `qr_login`: the two prompts
before the loop (the second one announcing the waiting-for-scan state),
then the loop's transition messages, then the post-success message. -/
def qrLoginEvents (trace : List PollStep) : List String :=
  let pre := ["请扫描以下二维码登录:", "等待扫描二维码..."]
  let r := qrPollLoop trace none (-1)
  match r.1 with
  | .confirmed (some _) => pre ++ r.2 ++ ["正在获取用户信息..."]
  | _ => pre ++ r.2

/-- `auth.rs` `UserInfo`. -/
structure UserInfo where
  uid : Nat
  room_id : Nat
  csrf : String
  cookies : SMap
deriving DecidableEq, Repr

/-- Rust `str::parse::<u64>`: an optional leading `+`, then one or more
ASCII digits, rejecting anything else and values above `u64::MAX`. -/
def parse_u64 (s : String) : Option Nat :=
  let digits :=
    match s.data with
    | '+' :: t => t
    | t => t
  if digits = [] ∨ ¬ digits.all (fun c => c.isDigit) then none
  else
    let n := digits.foldl (fun acc c => acc * 10 + (c.toNat - 48)) 0
    if n < 2 ^ 64 then some n else none

/-- `Auth::get_user_info`.  The live-room lookup
(`Auth::get_room_id`, a network call through the client) is the injected
`get_room_id` argument; everything before it is the pure cookie logic. -/
def get_user_info (get_room_id : Nat → Except BiliError Nat)
    (cookies : SMap) : Except BiliError UserInfo :=
  match List.lookup "DedeUserID" cookies with
  | none => .error (.Auth "未找到用户ID")
  | some dede =>
    match List.lookup "bili_jct" cookies with
    | none => .error (.Auth "未找到CSRF token")
    | some csrf =>
      match parse_u64 dede with
      | none => .error (.Auth "用户ID格式错误")
      | some uid =>
        match get_room_id uid with
        | .error e => .error e
        | .ok room_id => .ok ⟨uid, room_id, csrf, cookies⟩

/-- `Auth::cookies_to_string`: `k=v` pairs joined by `"; "` (the embedding
iterates in list order where the Rust `HashMap` order is arbitrary; the
verified properties never depend on that order). -/
def cookies_to_string (cookies : SMap) : String :=
  String.intercalate "; " (cookies.map (fun p => p.1 ++ "=" ++ p.2))

/-- Numeric value of an ASCII hex digit, if any. -/
def hexVal (c : Char) : Option Nat :=
  if '0' ≤ c ∧ c ≤ '9' then some (c.toNat - 48)
  else if 'A' ≤ c ∧ c ≤ 'F' then some (c.toNat - 55)
  else if 'a' ≤ c ∧ c ≤ 'f' then some (c.toNat - 87)
  else none

/-- Byte output of `urlencoding::decode` before UTF-8 validation: `%hh`
becomes one byte; a `%` not followed by two hex digits stays literal; every
other character contributes its UTF-8 bytes. -/
def pctBytes : List Char → List Nat
  | [] => []
  | '%' :: a :: b :: rest2 =>
    match hexVal a, hexVal b with
    | some x, some y => (16 * x + y) :: pctBytes rest2
    | _, _ => utf8Char '%' ++ pctBytes (a :: b :: rest2)
  | '%' :: rest => utf8Char '%' ++ pctBytes rest
  | c :: rest => utf8Char c ++ pctBytes rest

/-- Strict UTF-8 decoding of a byte sequence (the `String::from_utf8`
validation inside `urlencoding::decode`): rejects stray/invalid sequences,
overlong forms, surrogates and values beyond U+10FFFF. -/
def utf8DecodeList : List Nat → Option (List Char)
  | [] => some []
  | b :: rest =>
    if b < 128 then
      (utf8DecodeList rest).map (fun cs => Char.ofNat b :: cs)
    else
      match rest with
      | b2 :: rest2 =>
        if 194 ≤ b ∧ b ≤ 223 ∧ 128 ≤ b2 ∧ b2 ≤ 191 then
          (utf8DecodeList rest2).map
            (fun cs => Char.ofNat ((b - 192) * 64 + (b2 - 128)) :: cs)
        else
          match rest2 with
          | b3 :: rest3 =>
            if (224 ≤ b ∧ b ≤ 239) ∧
               (if b = 224 then 160 ≤ b2 ∧ b2 ≤ 191
                else if b = 237 then 128 ≤ b2 ∧ b2 ≤ 159
                else 128 ≤ b2 ∧ b2 ≤ 191) ∧
               (128 ≤ b3 ∧ b3 ≤ 191) then
              (utf8DecodeList rest3).map (fun cs =>
                Char.ofNat ((b - 224) * 4096 + (b2 - 128) * 64 + (b3 - 128)) :: cs)
            else
              match rest3 with
              | b4 :: rest4 =>
                if (240 ≤ b ∧ b ≤ 244) ∧
                   (if b = 240 then 144 ≤ b2 ∧ b2 ≤ 191
                    else if b = 244 then 128 ≤ b2 ∧ b2 ≤ 143
                    else 128 ≤ b2 ∧ b2 ≤ 191) ∧
                   (128 ≤ b3 ∧ b3 ≤ 191) ∧ (128 ≤ b4 ∧ b4 ≤ 191) then
                  (utf8DecodeList rest4).map (fun cs =>
                    Char.ofNat ((b - 240) * 262144 + (b2 - 128) * 4096 +
                      (b3 - 128) * 64 + (b4 - 128)) :: cs)
                else none
              | [] => none
          | [] => none
      | [] => none

/-- `urlencoding::decode`: percent-decode to bytes, then require the result
to be valid UTF-8 (`Err` otherwise). -/
def percentDecode (s : String) : Option String :=
  (utf8DecodeList (pctBytes s.data)).map String.mk

/-- Rust `\w` on the ASCII range (the cookie keys the program handles);
the `regex` crate additionally matches non-ASCII word characters. -/
def isWordChar (c : Char) : Bool := c.isAlphanum || c == '_'

/-- Scanning loop of `BilibiliClient::parse_cookies`: successive matches of
`(\w+)=([^;]+)(?:;|$)`, percent-decoding each captured value; the first
value that fails to decode aborts with that raw value (the Rust `?`).
`fuel` only bounds the recursion; every call site supplies at least
`length + 1`, which the scan (consuming ≥ 1 char per step) never exhausts. -/
def scanPairsF : Nat → List Char → Except String (List (String × String))
  | 0, _ => .ok []
  | _, [] => .ok []
  | fuel + 1, c :: cs =>
    if isWordChar c then
      let w := (c :: cs).takeWhile isWordChar
      match (c :: cs).dropWhile isWordChar with
      | '=' :: rest2 =>
        let v := rest2.takeWhile (fun d => !(d == ';'))
        if v.isEmpty then scanPairsF fuel cs
        else
          match percentDecode (String.mk v) with
          | none => .error (String.mk v)
          | some dv =>
            let rest4 :=
              match rest2.dropWhile (fun d => !(d == ';')) with
              | ';' :: t => t
              | t => t
            (scanPairsF fuel rest4).map (fun ps => (String.mk w, dv) :: ps)
      | _ => scanPairsF fuel cs
    else scanPairsF fuel cs

/-- `BilibiliClient::parse_cookies`.  The Rust error message interpolates
the library's `FromUtf8Error` display; the model keeps the fixed text plus
the offending raw value. -/
def parse_cookies (cookie_str : String) : Except BiliError SMap :=
  match scanPairsF (cookie_str.data.length + 1) cookie_str.data with
  | .error raw => .error (.General ("解析cookie失败: " ++ raw))
  | .ok ps => .ok ps

/-- `BilibiliClient::with_cookies`: builds a client whose jar is seeded from
the parsed cookie string (jar seeding itself is infallible; the only
fallible step kept by the model is `parse_cookies`). -/
def with_cookies (cookie_str : String) : Except BiliError SMap :=
  parse_cookies cookie_str

/-- Minimal `serde_json::Value`. -/
inductive JsonV where
  | null
  | bool (b : Bool)
  | num (n : Int)
  | str (s : String)
  | arr (xs : List JsonV)
  | obj (fields : List (String × JsonV))

/-- `Value::get` on an object key. -/
def JsonV.getField : JsonV → String → Option JsonV
  | .obj fs, k => List.lookup k fs
  | _, _ => none

/-- `Value::as_bool`. -/
def JsonV.as_bool : JsonV → Option Bool
  | .bool b => some b
  | _ => none

/-- `Auth::validate_cookies`.  `nav` is the outcome of
`client.get::<Value>("https://api.bilibili.com/x/web-interface/nav")`
(which already turned any non-zero envelope code into an error). -/
def validate_cookies (cookies : SMap)
    (nav : Except BiliError (ApiResponse JsonV)) : Except BiliError Bool :=
  match with_cookies (cookies_to_string cookies) with
  | .error e => .error e
  | .ok _ =>
    match nav with
    | .ok response =>
      match response.data with
      | some data =>
        match data.getField "isLogin" with
        | some is_login => .ok ((is_login.as_bool).getD false)
        | none => .ok false
      | none => .ok false
    | .error _ => .ok false

/-! ### Association-list map lemmas -/

theorem SMap.lookup_filter_ne (m : SMap) (k j : String) (h : j ≠ k) :
    List.lookup j (m.filter (fun p => !(p.1 == k))) = List.lookup j m := by
  induction m with
  | nil => rfl
  | cons p t ih =>
    obtain ⟨a, b⟩ := p
    by_cases hak : a = k
    · subst hak
      have hja : (j == a) = false := beq_false_of_ne h
      simp [List.lookup, hja, ih]
    · by_cases hja : j = a
      · subst hja
        simp [List.lookup, hak]
      · have hja' : (j == a) = false := beq_false_of_ne hja
        simp [List.lookup, hak, hja', ih]

theorem SMap.lookup_insert (m : SMap) (k v j : String) :
    List.lookup j (m.insert k v) = if j = k then some v else List.lookup j m := by
  by_cases h : j = k
  · subst h
    simp [SMap.insert, List.lookup]
  · have h' : (j == k) = false := beq_false_of_ne h
    simp [SMap.insert, List.lookup, h', h, SMap.lookup_filter_ne m k j h]

theorem SMap.mem_keys_insert (m : SMap) (k v j : String) :
    j ∈ SMap.keys (m.insert k v) ↔ j = k ∨ j ∈ SMap.keys m := by
  simp only [SMap.keys, SMap.insert, List.map_cons, List.mem_cons, List.mem_map,
    List.mem_filter]
  constructor
  · rintro (h | ⟨p, ⟨hp, _⟩, hj⟩)
    · exact Or.inl h
    · exact Or.inr ⟨p, hp, hj⟩
  · rintro (h | ⟨p, hp, hj⟩)
    · exact Or.inl h
    · by_cases hpk : p.1 = k
      · exact Or.inl (hj ▸ hpk)
      · exact Or.inr ⟨p, ⟨hp, by simp [hpk]⟩, hj⟩

theorem SMap.nodupKeys_insert (m : SMap) (k v : String) (h : nodupKeys m) :
    nodupKeys (m.insert k v) := by
  unfold nodupKeys SMap.insert
  simp only [List.map_cons, List.nodup_cons]
  constructor
  · intro hk
    obtain ⟨p, hp, hpk⟩ := List.mem_map.mp hk
    have := (List.mem_filter.mp hp).2
    simp [hpk] at this
  · exact List.Nodup.sublist (List.Sublist.map Prod.fst (List.filter_sublist m)) h

theorem SMap.lookup_of_mem (m : SMap) (h : nodupKeys m) {k v : String}
    (hm : (k, v) ∈ m) : List.lookup k m = some v := by
  induction m with
  | nil => cases hm
  | cons p t ih =>
    obtain ⟨a, b⟩ := p
    have hn := List.nodup_cons.mp h
    rcases List.mem_cons.mp hm with heq | htail
    · obtain ⟨h1, h2⟩ := Prod.mk.injEq .. ▸ heq
      subst h1; subst h2
      simp [List.lookup]
    · have hka : k ≠ a := by
        intro hka
        subst hka
        exact hn.1 (List.mem_map.mpr ⟨(k, v), htail, rfl⟩)
      have hka' : (k == a) = false := beq_false_of_ne hka
      simp [List.lookup, hka']
      exact ih hn.2 htail

/-! ### C3: envelope decoding in the Session Client -/

/-- C3: for every envelope decoded by the client's `get`/`post`, code 0
yields the envelope as a success, and a non-zero code yields
`BiliError::Api` carrying exactly that code and the envelope's message
(its `msg` field when present, otherwise `message` — the projection
`ApiResponse::get_message` the code applies), verbatim; a non-zero code is
never returned as a success. -/
theorem c3_nonzero_code_is_api_error {T : Type} (r : ApiResponse T) :
    (r.code = 0 → client_get (.ok r) = .ok r ∧ client_post (.ok r) = .ok r) ∧
    (r.code ≠ 0 →
      client_get (.ok r) = .error (.Api r.code r.get_message) ∧
      client_post (.ok r) = .error (.Api r.code r.get_message) ∧
      r.get_message = r.msg.getD r.message ∧
      ∀ x, client_get (.ok r) ≠ .ok x ∧ client_post (.ok r) ≠ .ok x) := by
  constructor
  · intro h
    simp [client_get, client_post, handle_response, ApiResponse.is_success, h]
  · intro h
    simp [client_get, client_post, handle_response, ApiResponse.is_success, h,
      ApiResponse.get_message]

theorem c3_witness :
    client_get (T := Bool) (.ok ⟨86038, "expired", none, none⟩) =
      .error (.Api 86038 "expired") :=
  ((c3_nonzero_code_is_api_error ⟨86038, "expired", none, none⟩).2 (by decide)).1

/-! ### C7: mixin-key length -/

theorem mixin_fold_length (cs : List Char) (l : List Nat)
    (hl : ∀ i ∈ l, i < cs.length) (acc : String) :
    (l.foldl
      (fun acc idx =>
        match cs.get? idx with
        | some ch => acc.push ch
        | none => acc) acc).data.length = acc.data.length + l.length := by
  induction l generalizing acc with
  | nil => simp
  | cons i t ih =>
    have hi : i < cs.length := hl i (List.mem_cons_self i t)
    obtain ⟨c, hc⟩ : ∃ c, cs.get? i = some c := by
      cases h : cs.get? i with
      | none => exact absurd (List.get?_eq_none.mp h) (Nat.not_le.mpr hi)
      | some c => exact ⟨c, rfl⟩
    have ht : ∀ j ∈ t, j < cs.length := fun j hj => hl j (List.mem_cons_of_mem i hj)
    simp only [List.foldl_cons, hc]
    rw [ih ht]
    simp [String.data_push]
    omega

/-- C7: whenever the two key fragments together are at least 64 characters
long (every index of the 64-entry permutation table is in range), the
derived mixin key has exactly 32 characters. -/
theorem c7_mixin_key_length (img_key sub_key : String)
    (h : 64 ≤ img_key.length + sub_key.length) :
    (get_mixin_key img_key sub_key).length = 32 := by
  obtain ⟨ci⟩ := img_key
  obtain ⟨cj⟩ := sub_key
  simp only [String.length_mk] at h
  have htab : ∀ i ∈ MIXIN_KEY_ENC_TAB, i < 64 := by decide
  have hidx : ∀ i ∈ MIXIN_KEY_ENC_TAB,
      i < (String.mk ci ++ String.mk cj).data.length := by
    intro i hi
    have h1 : (String.mk ci ++ String.mk cj).data.length = ci.length + cj.length :=
      List.length_append ci cj
    rw [h1]
    exact Nat.lt_of_lt_of_le (htab i hi) h
  have hfold := mixin_fold_length (String.mk ci ++ String.mk cj).data
    MIXIN_KEY_ENC_TAB hidx ""
  simp only [get_mixin_key, String.length_mk]
  rw [List.length_take, hfold]
  decide

theorem c7_witness :
    64 ≤ ("abcdefghijklmnopqrstuvwxyzABCDEF" : String).length +
        ("abcdefghijklmnopqrstuvwxyzABCDEF" : String).length ∧
    (get_mixin_key "abcdefghijklmnopqrstuvwxyzABCDEF"
        "abcdefghijklmnopqrstuvwxyzABCDEF").length = 32 :=
  ⟨by decide,
   c7_mixin_key_length "abcdefghijklmnopqrstuvwxyzABCDEF"
     "abcdefghijklmnopqrstuvwxyzABCDEF" (by decide)⟩

/-! ### C8: identity resolution requires the numeric-id cookie -/

/-- C8: `get_user_info` fails with an `Auth` error whenever the
`DedeUserID` cookie is absent (whatever else the snapshot holds, in
particular even when `bili_jct` is present), and also fails with an `Auth`
error whenever the `DedeUserID` value does not parse as a `u64`. -/
theorem c8_identity_requires_numeric_uid
    (grl : Nat → Except BiliError Nat) (cookies : SMap) :
    (List.lookup "DedeUserID" cookies = none →
      get_user_info grl cookies = .error (.Auth "未找到用户ID")) ∧
    (∀ v, List.lookup "DedeUserID" cookies = some v → parse_u64 v = none →
      ∃ m, get_user_info grl cookies = .error (.Auth m)) := by
  constructor
  · intro h
    simp [get_user_info, h]
  · intro v hv hp
    cases hj : List.lookup "bili_jct" cookies with
    | none => exact ⟨"未找到CSRF token", by simp [get_user_info, hv, hj]⟩
    | some c => exact ⟨"用户ID格式错误", by simp [get_user_info, hv, hj, hp]⟩

theorem c8_witness :
    List.lookup "DedeUserID" ([("bili_jct", "tok")] : SMap) = none ∧
    get_user_info (fun u => .ok u) [("bili_jct", "tok")] =
      .error (.Auth "未找到用户ID") ∧
    (∃ m, get_user_info (fun u => .ok u) [("DedeUserID", "abc"), ("bili_jct", "tok")] =
      .error (.Auth m)) :=
  ⟨by decide,
   (c8_identity_requires_numeric_uid (fun u => .ok u) [("bili_jct", "tok")]).1 (by decide),
   (c8_identity_requires_numeric_uid (fun u => .ok u)
     [("DedeUserID", "abc"), ("bili_jct", "tok")]).2 "abc" (by decide) (by decide)⟩

/-! ### C10: `check_login_status` never yields an empty `Some` snapshot -/

/-- C10: the cookie option returned by `check_login_status` is `none`
exactly when the poll response carried no cookies, so every `some`
snapshot it returns is non-empty. -/
theorem c10_some_snapshot_nonempty (raw : SMap) (json : ApiResponse LoginStatusData) :
    ((check_login_status raw json).2 = none ↔ raw = []) ∧
    (∀ s, (check_login_status raw json).2 = some s → s ≠ []) := by
  by_cases h : raw = []
  · subst h
    simp [check_login_status]
  · constructor
    · simp [check_login_status, h]
    · intro s hs
      simp [check_login_status, h] at hs
      subst hs
      exact h

theorem c10_witness :
    (check_login_status [("SESSDATA", "x")] ⟨0, "", none, none⟩).2 =
      some [("SESSDATA", "x")] ∧
    ([("SESSDATA", "x")] : SMap) ≠ [] :=
  ⟨by decide,
   (c10_some_snapshot_nonempty [("SESSDATA", "x")] ⟨0, "", none, none⟩).2
     [("SESSDATA", "x")] (by decide)⟩

/-! ### C2: frame of `app_sign` -/

/-- The keys `app_sign` adds to (or overwrites in) its input. -/
def addedKeys : List String :=
  ["sign", "ts", "appkey", "build", "version", "access_key"]

/-- C2 counterexample: the claim says every caller-supplied key keeps its
original, unmodified value, but a caller-supplied `"ts"` binding is
overwritten by the injected timestamp (likewise the other five reserved
names). -/
theorem c2_counterexample :
    nodupKeys [("ts", "original")] ∧
    List.lookup "ts" (app_sign (fun _ => "") 0 [("ts", "original")]) = some "0" ∧
    List.lookup "ts" (app_sign (fun _ => "") 0 [("ts", "original")]) ≠
      some "original" := by
  refine ⟨by decide, by decide, ?_⟩
  decide

/-- C2 (amended): the output key set is exactly the input keys plus the six
added keys `{sign, ts, appkey, build, version, access_key}`; every
caller-supplied key **other than those six reserved names** keeps its
original value, while caller bindings under the six reserved names are
overwritten; key uniqueness is preserved. -/
theorem c2_app_sign_frame (f : String → String) (ts : Nat) (m : SMap)
    (hm : nodupKeys m) :
    (∀ k, k ∈ SMap.keys (app_sign f ts m) ↔ k ∈ SMap.keys m ∨ k ∈ addedKeys) ∧
    (∀ k, k ∉ addedKeys → List.lookup k (app_sign f ts m) = List.lookup k m) ∧
    nodupKeys (app_sign f ts m) := by
  refine ⟨?_, ?_, ?_⟩
  · intro k
    simp only [app_sign, app_sign_base, SMap.mem_keys_insert, addedKeys,
      List.mem_cons, List.not_mem_nil, or_false]
    tauto
  · intro k hk
    simp only [addedKeys, List.mem_cons, List.not_mem_nil, or_false] at hk
    push_neg at hk
    obtain ⟨h1, h2, h3, h4, h5, h6⟩ := hk
    simp only [app_sign, app_sign_base, SMap.lookup_insert,
      if_neg h1, if_neg h2, if_neg h3, if_neg h4, if_neg h5, if_neg h6]
  · exact SMap.nodupKeys_insert _ _ _
      (SMap.nodupKeys_insert _ _ _
        (SMap.nodupKeys_insert _ _ _
          (SMap.nodupKeys_insert _ _ _
            (SMap.nodupKeys_insert _ _ _
              (SMap.nodupKeys_insert _ _ _ hm)))))

theorem c2_witness :
    nodupKeys [("room_id", "123456")] ∧
    List.lookup "room_id"
        (app_sign (fun _ => "") 5 [("room_id", "123456")]) =
      List.lookup "room_id" [("room_id", "123456")] :=
  ⟨by decide,
   (c2_app_sign_frame (fun _ => "") 5 [("room_id", "123456")] (by decide)).2.1
     "room_id" (by decide)⟩

/-! ### Polling-loop lemmas -/

theorem qrPollLoop_info_step (s : PollStep) (rest : List PollStep)
    (acc : Option SMap) (last : Int)
    (hs : s.code = 86090 ∨ s.code = 86101) :
    (qrPollLoop (s :: rest) acc last).1 =
      (qrPollLoop rest (snapUpd acc s) s.code).1 := by
  have h0 : ¬ s.code = 0 := by
    rcases hs with h | h <;> rw [h] <;> decide
  have h38 : ¬ s.code = 86038 := by
    rcases hs with h | h <;> rw [h] <;> decide
  by_cases hl : s.code = last
  · subst hl
    simp only [qrPollLoop, if_pos rfl]
    rw [if_neg h0]
    simp
  · simp only [qrPollLoop]
    rw [if_neg hl, if_neg h0, if_neg h38]
    rcases hs with h | h
    · rw [if_pos h]
    · rw [if_neg (show ¬ s.code = 86090 by rw [h]; decide), if_pos h]

theorem qrPollLoop_zero_step (s : PollStep) (rest : List PollStep)
    (acc : Option SMap) (last : Int) (hs : s.code = 0) :
    (qrPollLoop (s :: rest) acc last).1 = .confirmed (snapUpd acc s) := by
  by_cases hl : s.code = last
  · subst hl
    simp only [qrPollLoop, if_pos rfl]
    rw [if_pos hs]
    simp
  · simp only [qrPollLoop]
    rw [if_neg hl, if_pos hs]

theorem qrPollLoop_expired_step (s : PollStep) (rest : List PollStep)
    (acc : Option SMap) (last : Int) (hs : s.code = 86038)
    (hl : last ≠ 86038) :
    qrPollLoop (s :: rest) acc last =
      (.failed (.Login "二维码已失效，请重新生成"), []) := by
  have hne : ¬ s.code = last := by
    rw [hs]
    exact fun h => hl h.symm
  have h0 : ¬ s.code = 0 := by rw [hs]; decide
  simp only [qrPollLoop]
  rw [if_neg hne, if_neg h0, if_pos hs]

theorem qrPollLoop_info_prefix (pre : List PollStep)
    (hpre : ∀ p ∈ pre, p.code = 86090 ∨ p.code = 86101)
    (tail : List PollStep) (acc : Option SMap) (last : Int)
    (hl : last ≠ 86038) :
    ∃ last', last' ≠ 86038 ∧
      (qrPollLoop (pre ++ tail) acc last).1 =
        (qrPollLoop tail (pre.foldl snapUpd acc) last').1 := by
  induction pre generalizing acc last with
  | nil => exact ⟨last, hl, rfl⟩
  | cons s t ih =>
    have hs := hpre s (List.mem_cons_self s t)
    have hstep := qrPollLoop_info_step s (t ++ tail) acc last hs
    have hcode : s.code ≠ 86038 := by
      rcases hs with h | h <;> rw [h] <;> decide
    obtain ⟨last', h1, h2⟩ :=
      ih (fun p hp => hpre p (List.mem_cons_of_mem s hp)) (snapUpd acc s) s.code hcode
    exact ⟨last', h1, by rw [List.cons_append, hstep, h2]; rfl⟩

/-! ### C4: confirmation uses the last non-empty snapshot -/

/-- C4: on a run whose polls before the first code-0 poll are all
informational (86090 / 86101), the loop halts at the code-0 poll — the
result does not depend on `rest`, the polls that would have followed — and
the confirmed snapshot is the last non-empty cookie snapshot observed at
any poll of the attempt (`lastSnapshot` folds over every poll, so cookies
are captured from every response; the final poll's own cookies are free to
be empty).  When that snapshot exists, `qr_login` hands exactly it to
identity resolution. -/
theorem c4_confirm_uses_last_nonempty_snapshot (pre : List PollStep)
    (z : PollStep) (rest : List PollStep)
    (hpre : ∀ p ∈ pre, p.code = 86090 ∨ p.code = 86101) (hz : z.code = 0) :
    (qrPollLoop (pre ++ z :: rest) none (-1)).1 =
      .confirmed (lastSnapshot (pre ++ [z])) ∧
    (∀ s, lastSnapshot (pre ++ [z]) = some s →
      qr_login_result (pre ++ z :: rest) = .done (.ok s)) := by
  obtain ⟨last', _, heq⟩ :=
    qrPollLoop_info_prefix pre hpre (z :: rest) none (-1) (by decide)
  have h1 : (qrPollLoop (pre ++ z :: rest) none (-1)).1 =
      .confirmed (snapUpd (pre.foldl snapUpd none) z) := by
    rw [heq, qrPollLoop_zero_step _ _ _ _ hz]
  have h2 : lastSnapshot (pre ++ [z]) = snapUpd (pre.foldl snapUpd none) z := by
    simp [lastSnapshot, List.foldl_append]
  refine ⟨by rw [h1, h2], ?_⟩
  intro s hs
  unfold qr_login_result
  rw [h1, ← h2, hs]

theorem c4_witness :
    (∀ p ∈ ([⟨86101, "", []⟩,
        ⟨86090, "", [("DedeUserID", "100"), ("bili_jct", "tok")]⟩] :
          List PollStep), p.code = 86090 ∨ p.code = 86101) ∧
    lastSnapshot [⟨86101, "", []⟩,
        ⟨86090, "", [("DedeUserID", "100"), ("bili_jct", "tok")]⟩,
        ⟨0, "success", []⟩] =
      some [("DedeUserID", "100"), ("bili_jct", "tok")] ∧
    qr_login_result
        [⟨86101, "", []⟩,
         ⟨86090, "", [("DedeUserID", "100"), ("bili_jct", "tok")]⟩,
         ⟨0, "success", []⟩] =
      .done (.ok [("DedeUserID", "100"), ("bili_jct", "tok")]) :=
  ⟨by decide, by decide,
   (c4_confirm_uses_last_nonempty_snapshot
      [⟨86101, "", []⟩,
       ⟨86090, "", [("DedeUserID", "100"), ("bili_jct", "tok")]⟩]
      ⟨0, "success", []⟩ [] (by decide) (by decide)).2
     [("DedeUserID", "100"), ("bili_jct", "tok")] (by decide)⟩

/-! ### C5: ticket expiry -/

/-- C5 counterexample: a poll answering `{code: 86038, message: "expired"}`
makes the loop fail with `BiliError::Login` whose message is the fixed
string `"二维码已失效，请重新生成"` — an error that carries neither the
code 86038 nor the server's message `"expired"` verbatim, contrary to the
claim. -/
theorem c5_counterexample :
    (qrPollLoop [⟨86038, "expired", []⟩] none (-1)).1 =
      .failed (.Login "二维码已失效，请重新生成") ∧
    BiliError.Login "二维码已失效，请重新生成" ≠ BiliError.Api 86038 "expired" ∧
    "二维码已失效，请重新生成" ≠ "expired" := by
  refine ⟨by decide, by decide, by decide⟩

/-- C5 (amended): when a poll returns the ticket-expired code 86038 after
any run of informational polls, the loop performs no further polls (the
result ignores `rest`) and the run terminates with a `LoginError`
(`BiliError::Login`) carrying the fixed message
`"二维码已失效，请重新生成"`; the server's own message and the code are
discarded rather than propagated verbatim. -/
theorem c5_expired_halts_with_fixed_login_error (pre : List PollStep)
    (s : PollStep) (rest : List PollStep)
    (hpre : ∀ p ∈ pre, p.code = 86090 ∨ p.code = 86101)
    (hs : s.code = 86038) :
    (qrPollLoop (pre ++ s :: rest) none (-1)).1 =
      .failed (.Login "二维码已失效，请重新生成") ∧
    qr_login_result (pre ++ s :: rest) =
      .done (.error (.Login "二维码已失效，请重新生成")) := by
  obtain ⟨last', hl', heq⟩ :=
    qrPollLoop_info_prefix pre hpre (s :: rest) none (-1) (by decide)
  have h1 : (qrPollLoop (pre ++ s :: rest) none (-1)).1 =
      .failed (.Login "二维码已失效，请重新生成") := by
    rw [heq, qrPollLoop_expired_step _ _ _ _ hs hl']
  refine ⟨h1, ?_⟩
  unfold qr_login_result
  rw [h1]

theorem c5_witness :
    (qrPollLoop [⟨86101, "wait", []⟩, ⟨86038, "expired", []⟩] none (-1)).1 =
      .failed (.Login "二维码已失效，请重新生成") ∧
    qr_login_result [⟨86101, "wait", []⟩, ⟨86038, "expired", []⟩] =
      .done (.error (.Login "二维码已失效，请重新生成")) :=
  c5_expired_halts_with_fixed_login_error [⟨86101, "wait", []⟩]
    ⟨86038, "expired", []⟩ [] (by decide) (by decide)

/-! ### C6: edge-triggered notifications -/

/-- C6: (1) a poll whose classified code equals the previous poll's
classified code emits no notification — when the code repeats, the list of
emitted messages is unchanged (`[]` on the code-0 break, otherwise exactly
the messages of the remaining polls); (2) three consecutive polls with the
informational code 86090 emit exactly one "scanned" notification; (3)
three consecutive polls with the informational code 86101 emit no loop
notification at all, their single waiting notification being the one
message `qr_login` prints before the loop starts (which is why the 86101
arm deliberately prints nothing). -/
theorem c6_edge_triggered_notifications :
    (∀ (s : PollStep) (rest : List PollStep) (acc : Option SMap),
      (qrPollLoop (s :: rest) acc s.code).2 =
        if s.code = 0 then [] else (qrPollLoop rest (snapUpd acc s) s.code).2) ∧
    (∀ s : PollStep, s.code = 86090 →
      (qrPollLoop [s, s, s] none (-1)).2 = ["二维码已扫描，等待确认..."]) ∧
    (∀ s : PollStep, s.code = 86101 →
      (qrPollLoop [s, s, s] none (-1)).2 = [] ∧
      (qrLoginEvents [s, s, s]).count "等待扫描二维码..." = 1) := by
  refine ⟨?_, ?_, ?_⟩
  · intro s rest acc
    by_cases h0 : s.code = 0
    · simp only [qrPollLoop, if_pos rfl]
      simp [h0]
    · simp only [qrPollLoop, if_pos rfl]
      simp [h0]
  · intro s h
    obtain ⟨c, msg, ck⟩ := s
    simp only [PollStep.code] at h
    subst h
    simp [qrPollLoop]
  · intro s h
    obtain ⟨c, msg, ck⟩ := s
    simp only [PollStep.code] at h
    subst h
    constructor
    · simp [qrPollLoop]
    · simp [qrLoginEvents, qrPollLoop]

theorem c6_witness :
    (qrPollLoop [⟨86090, "", []⟩, ⟨86090, "", []⟩, ⟨86090, "", []⟩]
        none (-1)).2 = ["二维码已扫描，等待确认..."] ∧
    (qrLoginEvents [⟨86101, "", []⟩, ⟨86101, "", []⟩, ⟨86101, "", []⟩]).count
        "等待扫描二维码..." = 1 :=
  ⟨c6_edge_triggered_notifications.2.1 ⟨86090, "", []⟩ rfl,
   (c6_edge_triggered_notifications.2.2 ⟨86101, "", []⟩ rfl).2⟩

/-! ### C1: `app_sign` signature construction -/

theorem app_sign_base_nodup (ts : Nat) (m : SMap) (hm : nodupKeys m) :
    nodupKeys (app_sign_base ts m) :=
  SMap.nodupKeys_insert _ _ _
    (SMap.nodupKeys_insert _ _ _
      (SMap.nodupKeys_insert _ _ _
        (SMap.nodupKeys_insert _ _ _
          (SMap.nodupKeys_insert _ _ _ hm))))

/-- Sorting the keys and then looking each key up in the map builds the
same `key=percent_encode(value)` list as sorting the pairs themselves,
whenever keys are unique. -/
theorem sorted_keys_query_eq_sorted_pairs_query (aug : SMap)
    (haug : nodupKeys aug) :
    String.intercalate "&"
      ((List.insertionSort keyLe (SMap.keys aug)).map
        (fun k => k ++ "=" ++ percentEncode (aug.getD k ""))) =
      appSignSpecQuery aug := by
  unfold appSignSpecQuery
  have hkeys : SMap.keys aug = aug.map Prod.fst := rfl
  have hmap : (List.insertionSort pairLe aug).map Prod.fst =
      List.insertionSort keyLe (aug.map Prod.fst) :=
    List.map_insertionSort pairLe keyLe Prod.fst aug (fun _ _ _ _ => Iff.rfl)
  rw [hkeys, ← hmap, List.map_map]
  refine congrArg (String.intercalate "&") (List.map_congr_left ?_)
  intro p hp
  have hpm : p ∈ aug := (List.mem_insertionSort pairLe).mp hp
  have hlk : List.lookup p.1 aug = some p.2 :=
    SMap.lookup_of_mem aug haug (by exact hpm)
  simp [Function.comp, SMap.getD, hlk]

/-- C1: `app_sign` augments the mapping with the empty access key, the
injected timestamp, the fixed build, version and app key, and stores under
`sign` the digest (lower-case-hex MD5, injected as `f`) of the query
string that the spec describes — all resulting key/value pairs in
byte-wise lexicographically sorted key order, joined as
`key=percent_encode(value)` with `&`, with the fixed shared secret
appended before hashing.  Determinism is inherent: the embedding is a pure
function of the mapping and the injected timestamp. -/
theorem c1_app_sign_follows_spec (f : String → String) (ts : Nat) (m : SMap)
    (hm : nodupKeys m) :
    List.lookup "sign" (app_sign f ts m) =
      some (f (appSignSpecQuery (app_sign_base ts m) ++ APP_SECRET)) ∧
    List.lookup "access_key" (app_sign f ts m) = some "" ∧
    List.lookup "ts" (app_sign f ts m) = some (toString ts) ∧
    List.lookup "build" (app_sign f ts m) = some LIVEHIME_BUILD ∧
    List.lookup "version" (app_sign f ts m) = some LIVEHIME_VERSION ∧
    List.lookup "appkey" (app_sign f ts m) = some APP_KEY := by
  have haug := app_sign_base_nodup ts m hm
  have happ : app_sign f ts m =
      (app_sign_base ts m).insert "sign"
        (f (appSignSpecQuery (app_sign_base ts m) ++ APP_SECRET)) := by
    simp only [app_sign]
    rw [sorted_keys_query_eq_sorted_pairs_query (app_sign_base ts m) haug]
  refine ⟨?_, ?_, ?_, ?_, ?_, ?_⟩ <;>
    rw [happ] <;>
    simp only [app_sign_base, SMap.lookup_insert] <;>
    simp

theorem c1_witness :
    nodupKeys [("room_id", "123456"), ("platform", "pc_link")] ∧
    List.lookup "sign"
        (app_sign (fun s => s) 1700000000
          [("room_id", "123456"), ("platform", "pc_link")]) =
      some (appSignSpecQuery
          (app_sign_base 1700000000
            [("room_id", "123456"), ("platform", "pc_link")]) ++ APP_SECRET) :=
  ⟨by decide,
   (c1_app_sign_follows_spec (fun s => s) 1700000000
      [("room_id", "123456"), ("platform", "pc_link")] (by decide)).1⟩

/-! ### C9: `validate_cookies` error behaviour -/

/-- C9 counterexample: `validate_cookies` uses `?` on the client
construction, whose cookie-string parsing percent-decodes values; the
cookie value `"%FF"` decodes to the byte `0xFF`, which is not valid UTF-8,
so `validate_cookies` returns an error even for a lookup response whose
`data.isLogin` is `true` — refuting "never returns an error". -/
theorem c9_counterexample :
    validate_cookies [("a", "%FF")]
        (.ok ⟨0, "", some (.obj [("isLogin", JsonV.bool true)]), none⟩) =
      .error (.General "解析cookie失败: %FF") := by
  decide

/-- C9 (amended): once the client-construction step succeeds (the
serialised cookie string parses, i.e. every value percent-decodes to valid
UTF-8), `validate_cookies` never returns an error: transport failures, API
errors (non-zero envelope codes, already elevated by `client.get`), a
missing `data` field, a missing `isLogin` field and a non-boolean
`isLogin` all yield `Ok(false)`, and `Ok(true)` is returned only when
`data.isLogin` is the boolean `true`.  Cookie mappings whose serialisation
fails to parse (e.g. a value percent-decoding to invalid UTF-8) are
instead propagated as errors. -/
theorem c9_validate_cookies_swallows_lookup_failures (cookies : SMap)
    (hok : ∃ ps, with_cookies (cookies_to_string cookies) = .ok ps) :
    (∀ e, validate_cookies cookies (.error e) = .ok false) ∧
    (∀ r : ApiResponse JsonV, r.data = none →
      validate_cookies cookies (.ok r) = .ok false) ∧
    (∀ r : ApiResponse JsonV, ∀ d, r.data = some d →
      d.getField "isLogin" = none → validate_cookies cookies (.ok r) = .ok false) ∧
    (∀ r : ApiResponse JsonV, ∀ d v, r.data = some d →
      d.getField "isLogin" = some v → v.as_bool = none →
      validate_cookies cookies (.ok r) = .ok false) ∧
    (∀ r : ApiResponse JsonV, validate_cookies cookies (.ok r) = .ok true →
      ∃ d, r.data = some d ∧ d.getField "isLogin" = some (.bool true)) := by
  obtain ⟨ps, hps⟩ := hok
  refine ⟨?_, ?_, ?_, ?_, ?_⟩
  · intro e
    simp [validate_cookies, hps]
  · intro r hr
    simp [validate_cookies, hps, hr]
  · intro r d hr hd
    simp [validate_cookies, hps, hr, hd]
  · intro r d v hr hd hv
    simp [validate_cookies, hps, hr, hd, hv]
  · intro r hr
    unfold validate_cookies at hr
    rw [hps] at hr
    dsimp only at hr
    cases hdata : r.data with
    | none => rw [hdata] at hr; simp at hr
    | some d =>
      rw [hdata] at hr
      dsimp only at hr
      cases hfield : d.getField "isLogin" with
      | none => rw [hfield] at hr; simp at hr
      | some v =>
        rw [hfield] at hr
        dsimp only at hr
        refine ⟨d, rfl, ?_⟩
        cases v with
        | bool b =>
          cases b with
          | true => exact hfield
          | false => simp [JsonV.as_bool] at hr
        | null => simp [JsonV.as_bool] at hr
        | num n => simp [JsonV.as_bool] at hr
        | str s => simp [JsonV.as_bool] at hr
        | arr xs => simp [JsonV.as_bool] at hr
        | obj fs => simp [JsonV.as_bool] at hr

theorem c9_witness :
    with_cookies (cookies_to_string [("SESSDATA", "abc123")]) =
      .ok [("SESSDATA", "abc123")] ∧
    validate_cookies [("SESSDATA", "abc123")] (.error (.Network "timeout")) =
      .ok false :=
  ⟨by decide,
   (c9_validate_cookies_swallows_lookup_failures [("SESSDATA", "abc123")]
      ⟨[("SESSDATA", "abc123")], by decide⟩).1 (.Network "timeout")⟩
